import Mathlib

/-!
Shallow embedding of the Newton-Raphson iterator from
`src/newton_interativo.py` (function `newton_raphson`, lines 33-91).

Modelling choices:
* machine floats become rationals `ℚ`;
* the user-supplied callables `f` and `fp` become `ℚ → Option ℚ`,
  where `none` models an evaluation that raises a numeric fault
  (`ValueError`, `ZeroDivisionError`, `OverflowError`);
* the `float('nan')` values stored in trace records become `none` in
  `Option ℚ` fields;
* the initial `err_anterior = float('inf')` becomes `none : Option ℚ`;
  the comparison `err > err_anterior * 10` is false against infinity,
  which the `Option` match reproduces;
* the `for k in range(1, max_iter + 1)` loop becomes structural
  recursion on the fuel `max_iter.toNat` (empty for `max_iter ≤ 0`,
  exactly as `range` is);
* `print` calls are side effects outside the returned value and are
  dropped;
* the returned tuple `(root, iterations, converged, history)` becomes
  the structure `RunResult`; the iteration count is an `ℤ` because the
  exhaustion return hands back `max_iter` itself, which may be negative.
-/

namespace NewtonIterativo

/-- One entry of the iteration history `iters`: the Python tuple
`(k, xn, fxn, err)`.  `f_xn` and `error` are `Option ℚ` because the code
stores `float('nan')` in them on the fault branches; `none` models NaN. -/
structure IterationRecord where
  k : ℕ
  xn : ℚ
  f_xn : Option ℚ
  error : Option ℚ
  deriving DecidableEq, Repr

/-- The tuple returned by `newton_raphson`:
`(raiz aproximada, número de iterações, convergiu?, histórico)`. -/
structure RunResult where
  root : ℚ
  iterations_used : ℤ
  converged : Bool
  trace : List IterationRecord
  deriving DecidableEq, Repr

/-- The hard-coded near-singular-derivative threshold `1e-15` of line 62. -/
def derivThreshold : ℚ := 1 / 10 ^ 15

/-- The divergence test of line 83:
`err > err_anterior * 10 and k > 3`, with `errAnt = none` playing
`float('inf')` (against which the strict comparison is false). -/
def divergesNow (errAnt : Option ℚ) (err : ℚ) (k : ℕ) : Bool :=
  (match errAnt with
   | none => false
   | some p => decide (p * 10 < err)) && decide (3 < k)

/-- The body of the `for k in range(1, max_iter + 1)` loop of
`newton_raphson` (lines 52-91), as structural recursion on the number of
remaining passes.  `xn`, `errAnt`, `k` and `acc` carry the Python loop
state `xn`, `err_anterior`, `k` and `iters`; running out of fuel is the
fall-through return of line 91, which hands back `max_iter` itself. -/
def newtonLoop (f fp : ℚ → Option ℚ) (eps : ℚ) (max_iter : ℤ) :
    ℕ → ℚ → Option ℚ → ℕ → List IterationRecord → RunResult
  | 0, xn, _, _, acc => ⟨xn, max_iter, false, acc⟩
  | fuel + 1, xn, errAnt, k, acc =>
    match f xn, fp xn with
    | none, _ => ⟨xn, (k : ℤ), false, acc ++ [⟨k, xn, none, none⟩]⟩
    | some _, none => ⟨xn, (k : ℤ), false, acc ++ [⟨k, xn, none, none⟩]⟩
    | some fxn, some fpxn =>
      if |fpxn| < derivThreshold then
        ⟨xn, (k : ℤ), false, acc ++ [⟨k, xn, some fxn, none⟩]⟩
      else
        let xn1 := xn - fxn / fpxn
        let err := |xn1 - xn|
        let acc1 := acc ++ [⟨k, xn, some fxn, some err⟩]
        if err < eps then
          ⟨xn1, (k : ℤ), true, acc1⟩
        else if divergesNow errAnt err k then
          ⟨xn1, (k : ℤ), false, acc1⟩
        else
          newtonLoop f fp eps max_iter fuel xn1 (some err) (k + 1) acc1

/-- The iterator `newton_raphson(f, fp, x0, eps, max_iter)` of lines
33-91: state initialised as `xn = x0`, `iters = []`,
`err_anterior = inf`, first step number `k = 1`. -/
def newton_raphson (f fp : ℚ → Option ℚ) (x0 eps : ℚ) (max_iter : ℤ) :
    RunResult :=
  newtonLoop f fp eps max_iter max_iter.toNat x0 none 1 []

/-- The successful Newton update `xn1 = xn - f(xn)/fp(xn)` of line 68,
as a total function on iterates (identity when an evaluation faults). -/
def iterStep (f fp : ℚ → Option ℚ) (x : ℚ) : ℚ :=
  match f x, fp x with
  | some fx, some fpx => x - fx / fpx
  | _, _ => x

/-- The sequence of iterates produced by repeatedly applying the Newton
update starting from `x0`. -/
def iterSeq (f fp : ℚ → Option ℚ) (x0 : ℚ) : ℕ → ℚ
  | 0 => x0
  | n + 1 => iterStep f fp (iterSeq f fp x0 n)

/-- The error `|xn1 - xn|` of line 69 produced at the pass that starts
from the `n`-th iterate (Python step number `k = n + 1`). -/
def errSeq (f fp : ℚ → Option ℚ) (x0 : ℚ) (n : ℕ) : ℚ :=
  |iterSeq f fp x0 (n + 1) - iterSeq f fp x0 n|

/-- The `n` history records appended by passes `j+1, …, j+n` of a run
in which every pass reaches line 72 (no fault, no small derivative). -/
def traceRecords (f fp : ℚ → Option ℚ) (x0 : ℚ) : ℕ → ℕ → List IterationRecord
  | _, 0 => []
  | j, n + 1 =>
      ⟨j + 1, iterSeq f fp x0 j, f (iterSeq f fp x0 j), some (errSeq f fp x0 j)⟩ ::
        traceRecords f fp x0 (j + 1) n

theorem traceRecords_length (f fp : ℚ → Option ℚ) (x0 : ℚ) :
    ∀ n j, (traceRecords f fp x0 j n).length = n := by
  intro n
  induction n with
  | zero => intro j; rfl
  | succ n ih => intro j; simp [traceRecords, ih]

theorem newtonLoop_step (f fp : ℚ → Option ℚ) (eps : ℚ) (max_iter : ℤ)
    (fuel : ℕ) (xn : ℚ) (errAnt : Option ℚ) (k : ℕ) (acc : List IterationRecord)
    (fxn fpxn : ℚ) (hf : f xn = some fxn) (hfp : fp xn = some fpxn) :
    newtonLoop f fp eps max_iter (fuel + 1) xn errAnt k acc =
      if |fpxn| < derivThreshold then
        ⟨xn, (k : ℤ), false, acc ++ [⟨k, xn, some fxn, none⟩]⟩
      else if |xn - fxn / fpxn - xn| < eps then
        ⟨xn - fxn / fpxn, (k : ℤ), true,
          acc ++ [⟨k, xn, some fxn, some |xn - fxn / fpxn - xn|⟩]⟩
      else if divergesNow errAnt |xn - fxn / fpxn - xn| k then
        ⟨xn - fxn / fpxn, (k : ℤ), false,
          acc ++ [⟨k, xn, some fxn, some |xn - fxn / fpxn - xn|⟩]⟩
      else
        newtonLoop f fp eps max_iter fuel (xn - fxn / fpxn)
          (some |xn - fxn / fpxn - xn|) (k + 1)
          (acc ++ [⟨k, xn, some fxn, some |xn - fxn / fpxn - xn|⟩]) := by
  simp only [newtonLoop, hf, hfp]

theorem newtonLoop_fault (f fp : ℚ → Option ℚ) (eps : ℚ) (max_iter : ℤ)
    (fuel : ℕ) (xn : ℚ) (errAnt : Option ℚ) (k : ℕ) (acc : List IterationRecord)
    (h : f xn = none ∨ fp xn = none) :
    newtonLoop f fp eps max_iter (fuel + 1) xn errAnt k acc =
      ⟨xn, (k : ℤ), false, acc ++ [⟨k, xn, none, none⟩]⟩ := by
  rcases h with h | h
  · simp [newtonLoop, h]
  · cases hf : f xn <;> simp [newtonLoop, h, hf]

theorem abs_one_not_small : ¬ |(1 : ℚ)| < derivThreshold := by
  rw [abs_one, derivThreshold]
  norm_num

theorem abs_zero_small : |(0 : ℚ)| < derivThreshold := by
  rw [abs_zero, derivThreshold]
  norm_num

/-- C1: for non-positive `max_iter` the loop body never runs, so the
result is unconverged with an empty trace and `root = x0`; but the
iteration count handed back is `max_iter` itself (line 91), which is `0`
only when `max_iter = 0`.  The claim's `iterations_used = 0` fails for
negative `max_iter`. -/
theorem newton_raphson_nonpos_max_iter (f fp : ℚ → Option ℚ) (x0 eps : ℚ)
    (max_iter : ℤ) (h : max_iter ≤ 0) :
    newton_raphson f fp x0 eps max_iter = ⟨x0, max_iter, false, []⟩ := by
  have h0 : max_iter.toNat = 0 := Int.toNat_of_nonpos h
  rw [newton_raphson, h0, newtonLoop]

/-- C1, witness: at `max_iter = 0` the amended statement instantiates to
the concrete empty run. -/
theorem newton_raphson_nonpos_max_iter_witness :
    (0 : ℤ) ≤ 0 ∧
    newton_raphson (fun x => some x) (fun _ => some 1) 3 1 0 = ⟨3, 0, false, []⟩ :=
  ⟨le_refl 0,
    newton_raphson_nonpos_max_iter (fun x => some x) (fun _ => some 1) 3 1 0 (le_refl 0)⟩

/-- C1, counterexample: at `max_iter = -1` the code returns
`iterations_used = -1`, not `0` as the claim states. -/
theorem newton_raphson_neg_max_iter_counterexample :
    ¬ (newton_raphson (fun x => some x) (fun _ => some 1) 0 1 (-1)).iterations_used = 0 := by
  decide

/-- C3: if evaluating `f` or `fp` at the current iterate faults at step
`k` (lines 53-59), the loop appends `(k, xn, NaN, NaN)` and returns
`root = xn`, `iterations_used = k`, `converged = false`; being a total
function of the loop state, it propagates no exception. -/
theorem eval_fault_exit (f fp : ℚ → Option ℚ) (eps : ℚ) (max_iter : ℤ)
    (fuel : ℕ) (xn : ℚ) (errAnt : Option ℚ) (k : ℕ) (acc : List IterationRecord)
    (h : f xn = none ∨ fp xn = none) :
    newtonLoop f fp eps max_iter (fuel + 1) xn errAnt k acc =
      ⟨xn, (k : ℤ), false, acc ++ [⟨k, xn, none, none⟩]⟩ :=
  newtonLoop_fault f fp eps max_iter fuel xn errAnt k acc h

/-- C3, witness: a function that always faults exits at the first step. -/
theorem eval_fault_exit_witness :
    ((fun _ : ℚ => (none : Option ℚ)) 5 = none ∨ (fun _ : ℚ => some (1 : ℚ)) 5 = none) ∧
    newtonLoop (fun _ => none) (fun _ => some 1) 1 10 10 5 none 1 [] =
      ⟨5, 1, false, [⟨1, 5, none, none⟩]⟩ :=
  ⟨Or.inl rfl,
    eval_fault_exit (fun _ => none) (fun _ => some 1) 1 10 9 5 none 1 [] (Or.inl rfl)⟩

/-- C4: if `|fp(xn)| < 1e-15` at step `k` (lines 62-65), the loop
appends `(k, xn, f(xn), NaN)` — so the last trace error is NaN — and
returns `root = xn`, `iterations_used = k`, `converged = false`. -/
theorem small_derivative_exit (f fp : ℚ → Option ℚ) (eps : ℚ) (max_iter : ℤ)
    (fuel : ℕ) (xn : ℚ) (errAnt : Option ℚ) (k : ℕ) (acc : List IterationRecord)
    (fxn fpxn : ℚ) (hf : f xn = some fxn) (hfp : fp xn = some fpxn)
    (hsmall : |fpxn| < derivThreshold) :
    newtonLoop f fp eps max_iter (fuel + 1) xn errAnt k acc =
      ⟨xn, (k : ℤ), false, acc ++ [⟨k, xn, some fxn, none⟩]⟩ := by
  rw [newtonLoop_step f fp eps max_iter fuel xn errAnt k acc fxn fpxn hf hfp,
    if_pos hsmall]

/-- C4, witness: a derivative that is exactly `0` triggers the exit. -/
theorem small_derivative_exit_witness :
    (fun _ : ℚ => some (0 : ℚ)) 5 = some 0 ∧ |(0 : ℚ)| < derivThreshold ∧
    newtonLoop (fun x => some x) (fun _ => some 0) 1 10 10 5 none 1 [] =
      ⟨5, 1, false, [⟨1, 5, some 5, none⟩]⟩ :=
  ⟨rfl, abs_zero_small,
    small_derivative_exit (fun x => some x) (fun _ => some 0) 1 10 9 5 none 1 []
      5 0 rfl rfl abs_zero_small⟩

/-- C5: if the per-step error `|xn1 - xn|` with `xn1 = xn - f(xn)/fp(xn)`
drops below `eps` at step `k` (lines 68-80), the loop returns
`root = xn1` (the new iterate, not the recorded `xn`),
`iterations_used = k`, `converged = true`, the appended record carrying
that error — which is `< eps`. -/
theorem convergence_exit (f fp : ℚ → Option ℚ) (eps : ℚ) (max_iter : ℤ)
    (fuel : ℕ) (xn : ℚ) (errAnt : Option ℚ) (k : ℕ) (acc : List IterationRecord)
    (fxn fpxn : ℚ) (hf : f xn = some fxn) (hfp : fp xn = some fpxn)
    (hbig : ¬ |fpxn| < derivThreshold)
    (hconv : |xn - fxn / fpxn - xn| < eps) :
    newtonLoop f fp eps max_iter (fuel + 1) xn errAnt k acc =
      ⟨xn - fxn / fpxn, (k : ℤ), true,
        acc ++ [⟨k, xn, some fxn, some |xn - fxn / fpxn - xn|⟩]⟩ ∧
    |xn - fxn / fpxn - xn| < eps := by
  refine ⟨?_, hconv⟩
  rw [newtonLoop_step f fp eps max_iter fuel xn errAnt k acc fxn fpxn hf hfp,
    if_neg hbig, if_pos hconv]

theorem conv_exit_err_small : |(2 : ℚ) - 0 / 1 - 2| < 1 := by
  have h : (2 : ℚ) - 0 / 1 - 2 = 0 := by norm_num
  rw [h, abs_zero]
  norm_num

/-- C5, witness: starting at the exact root of `x - 2` the first error
is `0 < 1` and the loop converges at step 1. -/
theorem convergence_exit_witness :
    ¬ |(1 : ℚ)| < derivThreshold ∧ |(2 : ℚ) - 0 / 1 - 2| < 1 ∧
    (newtonLoop (fun x => some (x - 2)) (fun _ => some 1) 1 10 10 2 none 1 [] =
      ⟨2 - 0 / 1, 1, true, [⟨1, 2, some 0, some |(2 : ℚ) - 0 / 1 - 2|⟩]⟩ ∧
      |(2 : ℚ) - 0 / 1 - 2| < 1) :=
  ⟨abs_one_not_small, conv_exit_err_small,
    convergence_exit (fun x => some (x - 2)) (fun _ => some 1) 1 10 9 2 none 1 []
      0 1 (by norm_num) rfl abs_one_not_small conv_exit_err_small⟩

/-- C6: with a recorded previous error `prev`, a step whose error
exceeds `10 * prev` and is still `≥ eps` exits unconverged with
`root = xn1`, `iterations_used = k` — but only when `k > 3`; for
`k ≤ 3` the loop continues instead (lines 83-88). -/
theorem divergence_exit (f fp : ℚ → Option ℚ) (eps : ℚ) (max_iter : ℤ)
    (fuel : ℕ) (xn prev : ℚ) (k : ℕ) (acc : List IterationRecord)
    (fxn fpxn : ℚ) (hf : f xn = some fxn) (hfp : fp xn = some fpxn)
    (hbig : ¬ |fpxn| < derivThreshold)
    (hnoconv : ¬ |xn - fxn / fpxn - xn| < eps)
    (hgrow : prev * 10 < |xn - fxn / fpxn - xn|) :
    (3 < k →
      newtonLoop f fp eps max_iter (fuel + 1) xn (some prev) k acc =
        ⟨xn - fxn / fpxn, (k : ℤ), false,
          acc ++ [⟨k, xn, some fxn, some |xn - fxn / fpxn - xn|⟩]⟩) ∧
    (k ≤ 3 →
      newtonLoop f fp eps max_iter (fuel + 1) xn (some prev) k acc =
        newtonLoop f fp eps max_iter fuel (xn - fxn / fpxn)
          (some |xn - fxn / fpxn - xn|) (k + 1)
          (acc ++ [⟨k, xn, some fxn, some |xn - fxn / fpxn - xn|⟩])) := by
  rw [newtonLoop_step f fp eps max_iter fuel xn (some prev) k acc fxn fpxn hf hfp,
    if_neg hbig, if_neg hnoconv]
  constructor
  · intro hk
    have hdiv : divergesNow (some prev) |xn - fxn / fpxn - xn| k = true := by
      simp only [divergesNow, Bool.and_eq_true, decide_eq_true_eq]
      exact ⟨hgrow, hk⟩
    rw [if_pos hdiv]
  · intro hk
    have hdiv : divergesNow (some prev) |xn - fxn / fpxn - xn| k = false := by
      simp only [divergesNow, Bool.and_eq_false_iff, decide_eq_false_iff_not]
      exact Or.inr (by omega)
    rw [hdiv]
    simp

theorem div_exit_err_eval : |(0 : ℚ) - 100 / 1 - 0| = 100 := by
  have h : (0 : ℚ) - 100 / 1 - 0 = -100 := by norm_num
  rw [h, abs_neg, abs_of_nonneg]
  norm_num

theorem div_exit_err_grows : (1 : ℚ) * 10 < |(0 : ℚ) - 100 / 1 - 0| := by
  rw [div_exit_err_eval]
  norm_num

theorem div_exit_err_not_small : ¬ |(0 : ℚ) - 100 / 1 - 0| < 1 := by
  rw [div_exit_err_eval]
  norm_num

/-- C6, witness: at step `k = 4` with previous error `1`, a new error of
`100 > 10` triggers the divergence exit. -/
theorem divergence_exit_witness :
    (1 : ℚ) * 10 < |(0 : ℚ) - 100 / 1 - 0| ∧
    newtonLoop (fun _ => some 100) (fun _ => some 1) 1 10 5 0 (some 1) 4 [] =
      ⟨0 - 100 / 1, 4, false, [⟨4, 0, some 100, some |(0 : ℚ) - 100 / 1 - 0|⟩]⟩ :=
  ⟨div_exit_err_grows,
    (divergence_exit (fun _ => some 100) (fun _ => some 1) 1 10 4 0 1 4 []
      100 1 rfl rfl abs_one_not_small div_exit_err_not_small div_exit_err_grows).1
      (by omega)⟩

theorem k_fields_append (acc : List IterationRecord) (r : IterationRecord)
    (hacc : acc.map IterationRecord.k = List.range' 1 acc.length)
    (hr : r.k = acc.length + 1) :
    (acc ++ [r]).map IterationRecord.k = List.range' 1 (acc ++ [r]).length := by
  rw [List.map_append, hacc, List.length_append]
  simp [hr, List.range'_concat, Nat.add_comm]

theorem newtonLoop_k_fields (f fp : ℚ → Option ℚ) (eps : ℚ) (max_iter : ℤ) :
    ∀ (fuel : ℕ) (xn : ℚ) (errAnt : Option ℚ) (acc : List IterationRecord),
      acc.map IterationRecord.k = List.range' 1 acc.length →
      (newtonLoop f fp eps max_iter fuel xn errAnt (acc.length + 1) acc).trace.map
          IterationRecord.k =
        List.range' 1
          (newtonLoop f fp eps max_iter fuel xn errAnt (acc.length + 1) acc).trace.length := by
  intro fuel
  induction fuel with
  | zero =>
    intro xn errAnt acc hacc
    simpa [newtonLoop] using hacc
  | succ fuel ih =>
    intro xn errAnt acc hacc
    cases hf : f xn with
    | none =>
      rw [newtonLoop_fault f fp eps max_iter fuel xn errAnt (acc.length + 1) acc (Or.inl hf)]
      exact k_fields_append acc _ hacc rfl
    | some fxn =>
      cases hfp : fp xn with
      | none =>
        rw [newtonLoop_fault f fp eps max_iter fuel xn errAnt (acc.length + 1) acc (Or.inr hfp)]
        exact k_fields_append acc _ hacc rfl
      | some fpxn =>
        rw [newtonLoop_step f fp eps max_iter fuel xn errAnt (acc.length + 1) acc fxn fpxn hf hfp]
        split_ifs with h1 h2 h3
        · exact k_fields_append acc _ hacc rfl
        · exact k_fields_append acc _ hacc rfl
        · exact k_fields_append acc _ hacc rfl
        · have hlen : acc.length + 1 + 1 =
              (acc ++ [(⟨acc.length + 1, xn, some fxn,
                some |xn - fxn / fpxn - xn|⟩ : IterationRecord)]).length + 1 := by
            simp
          rw [hlen]
          exact ih (xn - fxn / fpxn) (some |xn - fxn / fpxn - xn|) _
            (k_fields_append acc _ hacc rfl)

/-- C8: the `k` fields of the returned trace are exactly
`1, 2, …, trace.length`: strictly increasing by one from `1`, hence
pairwise distinct (lines 52 and 58/64/72 always record the loop index). -/
theorem trace_k_fields (f fp : ℚ → Option ℚ) (x0 eps : ℚ) (max_iter : ℤ) :
    (newton_raphson f fp x0 eps max_iter).trace.map IterationRecord.k =
      List.range' 1 (newton_raphson f fp x0 eps max_iter).trace.length := by
  have h := newtonLoop_k_fields f fp eps max_iter max_iter.toNat x0 none [] (by simp)
  simpa [newton_raphson] using h

theorem newtonLoop_trace_length_mono (f fp : ℚ → Option ℚ) (eps : ℚ) (max_iter : ℤ) :
    ∀ (fuel : ℕ) (xn : ℚ) (errAnt : Option ℚ) (k : ℕ) (acc : List IterationRecord),
      acc.length ≤ (newtonLoop f fp eps max_iter fuel xn errAnt k acc).trace.length := by
  intro fuel
  induction fuel with
  | zero =>
    intro xn errAnt k acc
    simp [newtonLoop]
  | succ fuel ih =>
    intro xn errAnt k acc
    cases hf : f xn with
    | none =>
      rw [newtonLoop_fault f fp eps max_iter fuel xn errAnt k acc (Or.inl hf)]
      simp
    | some fxn =>
      cases hfp : fp xn with
      | none =>
        rw [newtonLoop_fault f fp eps max_iter fuel xn errAnt k acc (Or.inr hfp)]
        simp
      | some fpxn =>
        rw [newtonLoop_step f fp eps max_iter fuel xn errAnt k acc fxn fpxn hf hfp]
        split_ifs with h1 h2 h3
        · simp
        · simp
        · simp
        · calc acc.length
              ≤ (acc ++ [(⟨k, xn, some fxn,
                  some |xn - fxn / fpxn - xn|⟩ : IterationRecord)]).length := by simp
            _ ≤ _ := ih (xn - fxn / fpxn) (some |xn - fxn / fpxn - xn|) (k + 1) _

/-- C9: for `max_iter ≥ 1` the returned trace is non-empty — every exit
path of the loop appends a record before returning. -/
theorem trace_nonempty (f fp : ℚ → Option ℚ) (x0 eps : ℚ) (max_iter : ℤ)
    (h : 1 ≤ max_iter) :
    (newton_raphson f fp x0 eps max_iter).trace ≠ [] := by
  obtain ⟨m, hm⟩ : ∃ m, max_iter.toNat = m + 1 := ⟨max_iter.toNat - 1, by omega⟩
  rw [newton_raphson, hm]
  apply List.ne_nil_of_length_pos
  cases hf : f x0 with
  | none =>
    rw [newtonLoop_fault f fp eps max_iter m x0 none 1 [] (Or.inl hf)]
    simp
  | some fxn =>
    cases hfp : fp x0 with
    | none =>
      rw [newtonLoop_fault f fp eps max_iter m x0 none 1 [] (Or.inr hfp)]
      simp
    | some fpxn =>
      rw [newtonLoop_step f fp eps max_iter m x0 none 1 [] fxn fpxn hf hfp]
      split_ifs with h1 h2 h3
      · simp
      · simp
      · simp
      · have hmono := newtonLoop_trace_length_mono f fp eps max_iter m (x0 - fxn / fpxn)
          (some |x0 - fxn / fpxn - x0|) 2
          [⟨1, x0, some fxn, some |x0 - fxn / fpxn - x0|⟩]
        simpa using lt_of_lt_of_le Nat.zero_lt_one (by simpa using hmono)

/-- C9, witness: a one-step converging run has a non-empty trace. -/
theorem trace_nonempty_witness :
    (1 : ℤ) ≤ 1 ∧
    (newton_raphson (fun x => some x) (fun _ => some 1) 5 1 1).trace ≠ [] :=
  ⟨le_refl 1, trace_nonempty (fun x => some x) (fun _ => some 1) 5 1 1 (le_refl 1)⟩

theorem newtonLoop_converged_root (f fp : ℚ → Option ℚ) (eps : ℚ) (max_iter : ℤ) :
    ∀ (fuel : ℕ) (xn : ℚ) (errAnt : Option ℚ) (k : ℕ) (acc : List IterationRecord),
      (newtonLoop f fp eps max_iter fuel xn errAnt k acc).converged = true →
      ∃ r : IterationRecord,
        (newtonLoop f fp eps max_iter fuel xn errAnt k acc).trace.getLast? = some r ∧
        ∃ fxn fpxn : ℚ, r.f_xn = some fxn ∧ fp r.xn = some fpxn ∧
          (newtonLoop f fp eps max_iter fuel xn errAnt k acc).root = r.xn - fxn / fpxn ∧
          r.error = some |(newtonLoop f fp eps max_iter fuel xn errAnt k acc).root - r.xn| := by
  intro fuel
  induction fuel with
  | zero =>
    intro xn errAnt k acc hconv
    simp [newtonLoop] at hconv
  | succ fuel ih =>
    intro xn errAnt k acc hconv
    cases hf : f xn with
    | none =>
      rw [newtonLoop_fault f fp eps max_iter fuel xn errAnt k acc (Or.inl hf)] at hconv ⊢
      simp at hconv
    | some fxn =>
      cases hfp : fp xn with
      | none =>
        rw [newtonLoop_fault f fp eps max_iter fuel xn errAnt k acc (Or.inr hfp)] at hconv ⊢
        simp at hconv
      | some fpxn =>
        rw [newtonLoop_step f fp eps max_iter fuel xn errAnt k acc fxn fpxn hf hfp] at hconv ⊢
        by_cases h1 : |fpxn| < derivThreshold
        · rw [if_pos h1] at hconv
          exact absurd hconv (by simp)
        · rw [if_neg h1] at hconv ⊢
          by_cases h2 : |xn - fxn / fpxn - xn| < eps
          · rw [if_pos h2] at hconv ⊢
            exact ⟨⟨k, xn, some fxn, some |xn - fxn / fpxn - xn|⟩, by simp, fxn, fpxn, rfl,
              hfp, rfl, rfl⟩
          · rw [if_neg h2] at hconv ⊢
            by_cases h3 : divergesNow errAnt |xn - fxn / fpxn - xn| k = true
            · rw [if_pos h3] at hconv
              exact absurd hconv (by simp)
            · rw [if_neg h3] at hconv ⊢
              exact ih (xn - fxn / fpxn) (some |xn - fxn / fpxn - xn|) (k + 1) _ hconv

/-- C10: whenever the run converges, the returned root and the last
trace record `(k, xn, f_xn, error)` satisfy `root = xn - f_xn / fp(xn)`
and `error = |root - xn|` — the root differs from the last recorded
iterate by exactly the last recorded error (lines 68-80). -/
theorem converged_root_relation (f fp : ℚ → Option ℚ) (x0 eps : ℚ) (max_iter : ℤ)
    (h : (newton_raphson f fp x0 eps max_iter).converged = true) :
    ∃ r : IterationRecord,
      (newton_raphson f fp x0 eps max_iter).trace.getLast? = some r ∧
      ∃ fxn fpxn : ℚ, r.f_xn = some fxn ∧ fp r.xn = some fpxn ∧
        (newton_raphson f fp x0 eps max_iter).root = r.xn - fxn / fpxn ∧
        r.error = some |(newton_raphson f fp x0 eps max_iter).root - r.xn| :=
  newtonLoop_converged_root f fp eps max_iter max_iter.toNat x0 none 1 [] h

theorem conv_run_eval :
    newton_raphson (fun x => some (x - 2)) (fun _ => some 1) 2 1 1 =
      ⟨2 - 0 / 1, 1, true, [⟨1, 2, some 0, some |(2 : ℚ) - 0 / 1 - 2|⟩]⟩ := by
  rw [newton_raphson, show ((1 : ℤ)).toNat = 0 + 1 from rfl,
    newtonLoop_step (fun x => some (x - 2)) (fun _ => some 1) 1 1 0 2 none 1 [] 0 1
      (by norm_num) rfl,
    if_neg abs_one_not_small, if_pos conv_exit_err_small]
  rfl

/-- C10, witness: the one-step converging run on `f(x) = x - 2` from
`x0 = 2`. -/
theorem converged_root_relation_witness :
    (newton_raphson (fun x => some (x - 2)) (fun _ => some 1) 2 1 1).converged = true ∧
    ∃ r : IterationRecord,
      (newton_raphson (fun x => some (x - 2)) (fun _ => some 1) 2 1 1).trace.getLast? =
        some r ∧
      ∃ fxn fpxn : ℚ, r.f_xn = some fxn ∧ (fun _ : ℚ => some (1 : ℚ)) r.xn = some fpxn ∧
        (newton_raphson (fun x => some (x - 2)) (fun _ => some 1) 2 1 1).root =
          r.xn - fxn / fpxn ∧
        r.error =
          some |(newton_raphson (fun x => some (x - 2)) (fun _ => some 1) 2 1 1).root -
            r.xn| :=
  ⟨by rw [conv_run_eval],
    converged_root_relation (fun x => some (x - 2)) (fun _ => some 1) 2 1 1
      (by rw [conv_run_eval])⟩

theorem linear_run_eval :
    newton_raphson (fun x => some (x - 0)) (fun _ => some 1) 1 (1 / 2) 10 =
      ⟨1 - 1 / 1 - 0 / 1, 2, true,
        [⟨1, 1, some 1, some |(1 : ℚ) - 1 / 1 - 1|⟩,
         ⟨2, 1 - 1 / 1, some 0, some |(1 : ℚ) - 1 / 1 - 0 / 1 - (1 - 1 / 1)|⟩]⟩ := by
  have hnc : ¬ |(1 : ℚ) - 1 / 1 - 1| < 1 / 2 := by
    rw [show (1 : ℚ) - 1 / 1 - 1 = -1 by norm_num, abs_neg, abs_one]
    norm_num
  have hcv : |(1 : ℚ) - 1 / 1 - 0 / 1 - (1 - 1 / 1)| < 1 / 2 := by
    rw [show (1 : ℚ) - 1 / 1 - 0 / 1 - (1 - 1 / 1) = 0 by norm_num, abs_zero]
    norm_num
  rw [newton_raphson, show ((10 : ℤ)).toNat = 9 + 1 from rfl,
    newtonLoop_step (fun x => some (x - 0)) (fun _ => some 1) (1 / 2) 10 9 1 none 1 []
      1 1 (by norm_num) rfl,
    if_neg abs_one_not_small, if_neg hnc,
    if_neg (show ¬ divergesNow none |(1 : ℚ) - 1 / 1 - 1| 1 = true by simp [divergesNow]),
    show (9 : ℕ) = 8 + 1 from rfl,
    newtonLoop_step (fun x => some (x - 0)) (fun _ => some 1) (1 / 2) 10 8 (1 - 1 / 1)
      (some |(1 : ℚ) - 1 / 1 - 1|) (1 + 1)
      ([] ++ [(⟨1, 1, some 1, some |(1 : ℚ) - 1 / 1 - 1|⟩ : IterationRecord)])
      0 1 (by norm_num) rfl,
    if_neg abs_one_not_small, if_pos hcv]
  rfl

/-- C2, counterexample: with `f(x) = x - 0`, `x0 = 1`, `eps = 1/2` the
first error is `1 ≥ eps`, so the run takes 2 iterations, not 1 as the
claim states for every `x0`. -/
theorem linear_one_iteration_counterexample :
    ¬ (newton_raphson (fun x => some (x - 0)) (fun _ => some 1) 1 (1 / 2) 10).iterations_used
        = 1 := by
  rw [linear_run_eval]
  decide

/-- C2, amended: with `f(x) = x - c` and `fp(x) = 1`, `eps > 0` and
`max_iter ≥ 2`, the run converges to `root = c` for every `x0`; it takes
exactly 1 iteration when `|c - x0| < eps` and exactly 2 otherwise (the
first Newton step lands on `c` but its recorded error `|c - x0|` only
certifies convergence when below `eps`; the second step has error `0`). -/
theorem linear_converges (c x0 eps : ℚ) (max_iter : ℤ)
    (heps : 0 < eps) (hmax : 2 ≤ max_iter) :
    (newton_raphson (fun x => some (x - c)) (fun _ => some 1) x0 eps max_iter).root = c ∧
    (newton_raphson (fun x => some (x - c)) (fun _ => some 1) x0 eps max_iter).converged
        = true ∧
    (newton_raphson (fun x => some (x - c)) (fun _ => some 1) x0 eps max_iter).iterations_used
        = if |c - x0| < eps then 1 else 2 := by
  obtain ⟨m, hm⟩ : ∃ m, max_iter.toNat = (m + 1) + 1 := ⟨max_iter.toNat - 2, by omega⟩
  have hE : |x0 - (x0 - c) / 1 - x0| = |c - x0| := by
    rw [show x0 - (x0 - c) / 1 - x0 = c - x0 by ring]
  rw [newton_raphson, hm,
    newtonLoop_step (fun x => some (x - c)) (fun _ => some 1) eps max_iter (m + 1) x0 none 1
      [] (x0 - c) 1 rfl rfl,
    if_neg abs_one_not_small]
  by_cases hcase : |c - x0| < eps
  · rw [if_pos (show |x0 - (x0 - c) / 1 - x0| < eps from by rw [hE]; exact hcase)]
    exact ⟨show x0 - (x0 - c) / 1 = c from by ring, rfl, by rw [if_pos hcase]; rfl⟩
  · rw [if_neg (show ¬ |x0 - (x0 - c) / 1 - x0| < eps from by rw [hE]; exact hcase),
      if_neg (show ¬ divergesNow none |x0 - (x0 - c) / 1 - x0| 1 = true
        by simp [divergesNow]),
      newtonLoop_step (fun x => some (x - c)) (fun _ => some 1) eps max_iter m
        (x0 - (x0 - c) / 1) (some |x0 - (x0 - c) / 1 - x0|) (1 + 1)
        ([] ++ [(⟨1, x0, some (x0 - c), some |x0 - (x0 - c) / 1 - x0|⟩ : IterationRecord)])
        (x0 - (x0 - c) / 1 - c) 1 rfl rfl,
      if_neg abs_one_not_small,
      if_pos (show
        |x0 - (x0 - c) / 1 - (x0 - (x0 - c) / 1 - c) / 1 - (x0 - (x0 - c) / 1)| < eps from by
          rw [show x0 - (x0 - c) / 1 - (x0 - (x0 - c) / 1 - c) / 1 - (x0 - (x0 - c) / 1) = 0
            by ring, abs_zero]
          exact heps)]
    exact ⟨show x0 - (x0 - c) / 1 - (x0 - (x0 - c) / 1 - c) / 1 = c from by ring, rfl,
      by rw [if_neg hcase]; rfl⟩

/-- C2, witness: `c = 5`, `x0 = 3`, `eps = 1`, `max_iter = 10`. -/
theorem linear_converges_witness :
    (0 : ℚ) < 1 ∧ (2 : ℤ) ≤ 10 ∧
    ((newton_raphson (fun x => some (x - 5)) (fun _ => some 1) 3 1 10).root = 5 ∧
     (newton_raphson (fun x => some (x - 5)) (fun _ => some 1) 3 1 10).converged = true ∧
     (newton_raphson (fun x => some (x - 5)) (fun _ => some 1) 3 1 10).iterations_used
        = if |(5 : ℚ) - 3| < 1 then 1 else 2) :=
  ⟨by norm_num, by decide, linear_converges 5 3 1 10 (by norm_num) (by decide)⟩

theorem newtonLoop_exhaust (f fp : ℚ → Option ℚ) (x0 eps : ℚ) (max_iter : ℤ) :
    ∀ (fuel j : ℕ) (acc : List IterationRecord) (errAnt : Option ℚ),
      (∀ i, j ≤ i → i < j + fuel → (f (iterSeq f fp x0 i)).isSome = true) →
      (∀ i, j ≤ i → i < j + fuel → (fp (iterSeq f fp x0 i)).isSome = true) →
      (∀ i, j ≤ i → i < j + fuel → ¬ |(fp (iterSeq f fp x0 i)).getD 0| < derivThreshold) →
      (∀ i, j ≤ i → i < j + fuel → eps ≤ errSeq f fp x0 i) →
      (∀ i, j ≤ i → i < j + fuel → 3 ≤ i →
        ¬ errSeq f fp x0 (i - 1) * 10 < errSeq f fp x0 i) →
      errAnt = (if j = 0 then none else some (errSeq f fp x0 (j - 1))) →
      newtonLoop f fp eps max_iter fuel (iterSeq f fp x0 j) errAnt (j + 1) acc =
        ⟨iterSeq f fp x0 (j + fuel), max_iter, false,
          acc ++ traceRecords f fp x0 j fuel⟩ := by
  intro fuel
  induction fuel with
  | zero =>
    intro j acc errAnt _ _ _ _ _ _
    simp [newtonLoop, traceRecords]
  | succ fuel ih =>
    intro j acc errAnt h1 h2 h3 h4 h5 hprev
    obtain ⟨fx, hfx⟩ := Option.isSome_iff_exists.mp (h1 j le_rfl (by omega))
    obtain ⟨fpx, hfpx⟩ := Option.isSome_iff_exists.mp (h2 j le_rfl (by omega))
    have hstep : iterSeq f fp x0 (j + 1) = iterSeq f fp x0 j - fx / fpx := by
      simp [iterSeq, iterStep, hfx, hfpx]
    have herr : |iterSeq f fp x0 j - fx / fpx - iterSeq f fp x0 j| = errSeq f fp x0 j := by
      rw [errSeq, hstep]
    have hdg : ¬ |fpx| < derivThreshold := by
      have h := h3 j le_rfl (by omega)
      rwa [hfpx, Option.getD_some] at h
    have hnc : ¬ |iterSeq f fp x0 j - fx / fpx - iterSeq f fp x0 j| < eps := by
      rw [herr]
      exact not_lt.mpr (h4 j le_rfl (by omega))
    have hdivF : divergesNow errAnt |iterSeq f fp x0 j - fx / fpx - iterSeq f fp x0 j|
        (j + 1) = false := by
      by_cases hj3 : 3 ≤ j
      · rw [hprev, if_neg (show j ≠ 0 by omega)]
        simp only [divergesNow, herr]
        rw [decide_eq_false (h5 j le_rfl (by omega) hj3)]
        exact Bool.false_and _
      · simp only [divergesNow]
        rw [decide_eq_false (show ¬ 3 < j + 1 by omega)]
        exact Bool.and_false _
    rw [newtonLoop_step f fp eps max_iter fuel (iterSeq f fp x0 j) errAnt (j + 1) acc
        fx fpx hfx hfpx,
      if_neg hdg, if_neg hnc,
      if_neg (show ¬ divergesNow errAnt |iterSeq f fp x0 j - fx / fpx - iterSeq f fp x0 j|
        (j + 1) = true from by rw [hdivF]; exact Bool.false_ne_true),
      herr, ← hstep, ← hfx]
    rw [ih (j + 1)
      (acc ++ [(⟨j + 1, iterSeq f fp x0 j, f (iterSeq f fp x0 j),
        some (errSeq f fp x0 j)⟩ : IterationRecord)])
      (some (errSeq f fp x0 j))
      (fun i hi hi2 => h1 i (by omega) (by omega))
      (fun i hi hi2 => h2 i (by omega) (by omega))
      (fun i hi hi2 => h3 i (by omega) (by omega))
      (fun i hi hi2 => h4 i (by omega) (by omega))
      (fun i hi hi2 h3i => h5 i (by omega) (by omega) h3i)
      (by rw [if_neg (Nat.succ_ne_zero j)]; simp)]
    rw [show j + 1 + fuel = j + (fuel + 1) from by omega, List.append_assoc]
    simp [traceRecords]

/-- C7: if every pass up to `max_iter` evaluates both callables
successfully, never sees a near-zero derivative, never has error below
`eps`, and never trips the divergence heuristic, the loop exhausts
`max_iter` passes and returns the last computed iterate as `root`,
`iterations_used = max_iter`, `converged = false`, with exactly
`max_iter` trace records (lines 88-91). -/
theorem exhaustion_result (f fp : ℚ → Option ℚ) (x0 eps : ℚ) (max_iter : ℤ)
    (h1 : ∀ i < max_iter.toNat, (f (iterSeq f fp x0 i)).isSome = true)
    (h2 : ∀ i < max_iter.toNat, (fp (iterSeq f fp x0 i)).isSome = true)
    (h3 : ∀ i < max_iter.toNat, ¬ |(fp (iterSeq f fp x0 i)).getD 0| < derivThreshold)
    (h4 : ∀ i < max_iter.toNat, eps ≤ errSeq f fp x0 i)
    (h5 : ∀ i < max_iter.toNat, 3 ≤ i →
      ¬ errSeq f fp x0 (i - 1) * 10 < errSeq f fp x0 i) :
    newton_raphson f fp x0 eps max_iter =
      ⟨iterSeq f fp x0 max_iter.toNat, max_iter, false,
        traceRecords f fp x0 0 max_iter.toNat⟩ ∧
    (traceRecords f fp x0 0 max_iter.toNat).length = max_iter.toNat := by
  constructor
  · have h := newtonLoop_exhaust f fp x0 eps max_iter max_iter.toNat 0 [] none
      (fun i _ hi => h1 i (by omega)) (fun i _ hi => h2 i (by omega))
      (fun i _ hi => h3 i (by omega)) (fun i _ hi => h4 i (by omega))
      (fun i _ hi h3i => h5 i (by omega) h3i) (by rw [if_pos rfl])
    simpa [newton_raphson, iterSeq] using h
  · exact traceRecords_length f fp x0 max_iter.toNat 0

theorem c7_iter_one :
    iterSeq (fun _ => some (1 : ℚ)) (fun _ => some (1 : ℚ)) 0 1 = -1 := by
  show iterStep (fun _ => some (1 : ℚ)) (fun _ => some (1 : ℚ)) 0 = -1
  rw [iterStep]
  norm_num

theorem c7_err_eval :
    errSeq (fun _ => some (1 : ℚ)) (fun _ => some (1 : ℚ)) 0 0 = 1 := by
  rw [errSeq, c7_iter_one, show iterSeq (fun _ => some (1 : ℚ)) (fun _ => some (1 : ℚ)) 0 0
      = 0 from rfl,
    show (-1 : ℚ) - 0 = -1 by ring, abs_neg, abs_one]

/-- C7, witness: the constant function `f(x) = 1` with `fp(x) = 1` never
converges; with `max_iter = 1` the loop exhausts its single pass. -/
theorem exhaustion_result_witness :
    (∀ i < ((1 : ℤ)).toNat,
      (1 : ℚ) / 2 ≤ errSeq (fun _ => some (1 : ℚ)) (fun _ => some (1 : ℚ)) 0 i) ∧
    (newton_raphson (fun _ => some (1 : ℚ)) (fun _ => some (1 : ℚ)) 0 (1 / 2) 1 =
      ⟨iterSeq (fun _ => some (1 : ℚ)) (fun _ => some (1 : ℚ)) 0 ((1 : ℤ)).toNat, 1, false,
        traceRecords (fun _ => some (1 : ℚ)) (fun _ => some (1 : ℚ)) 0 0 ((1 : ℤ)).toNat⟩ ∧
     (traceRecords (fun _ => some (1 : ℚ)) (fun _ => some (1 : ℚ)) 0 0
        ((1 : ℤ)).toNat).length = ((1 : ℤ)).toNat) := by
  have hc : ∀ i < ((1 : ℤ)).toNat,
      (1 : ℚ) / 2 ≤ errSeq (fun _ => some (1 : ℚ)) (fun _ => some (1 : ℚ)) 0 i := by
    intro i hi
    have hi0 : i = 0 := by omega
    rw [hi0, c7_err_eval]
    norm_num
  refine ⟨hc, exhaustion_result (fun _ => some (1 : ℚ)) (fun _ => some (1 : ℚ)) 0 (1 / 2) 1
    (fun i _ => rfl) (fun i _ => rfl)
    (fun i _ => by simpa using abs_one_not_small)
    hc
    (fun i hi h3i => absurd h3i (by omega))⟩

end NewtonIterativo
